import Mathlib

/-!
Verification development for the pysingfel geometry module
(src/pysingfel/geometry.py).

The Python module operates on numpy arrays of floating point numbers.  The
shallow embedding below idealises floating point as the real numbers and
models one pixel (one row of a pixel stack) at a time: all array operations
of the source are pixelwise, the surrounding reshape calls are pure shape
bookkeeping.  Integer array indices are modelled as Lean integers, numpy
fancy indexing (negative wrap-around, IndexError on out of range indices)
is modelled explicitly where a claim depends on it.  Python exceptions are
modelled with an Except monad over an explicit error type.
-/

namespace Pysingfel

open Real

/-- Real 3-vector: one row of a numpy array of trailing dimension 3. -/
@[ext]
structure Vec3 where
  x : ℝ
  y : ℝ
  z : ℝ

/-- Real 3 by 3 matrix with explicit entries r00 .. r22, written exactly as
the source accesses rotation matrices. -/
@[ext]
structure Mat3 where
  r00 : ℝ
  r01 : ℝ
  r02 : ℝ
  r10 : ℝ
  r11 : ℝ
  r12 : ℝ
  r20 : ℝ
  r21 : ℝ
  r22 : ℝ

/-- Quaternion as a plain 4-vector (w, x, y, z), matching the length-4 numpy
arrays of the source. -/
@[ext]
structure Quat where
  w : ℝ
  x : ℝ
  y : ℝ
  z : ℝ

/-- Python exception values relevant to this module. -/
inductive PyErr where
  | valueError (msg : String)
  | indexError (msg : String)
  | nameError (nm : String)
deriving DecidableEq, Repr

/-- rotate_pixels_in_reciprocal_space: np.dot(pixels_position, rot_mat.T)
applied to a single pixel row vector, i.e. component i is the dot product of
row i of rot_mat with the pixel position. -/
def rotate_pixels_in_reciprocal_space (rot_mat : Mat3) (p : Vec3) : Vec3 :=
  ⟨rot_mat.r00 * p.x + rot_mat.r01 * p.y + rot_mat.r02 * p.z,
   rot_mat.r10 * p.x + rot_mat.r11 * p.y + rot_mat.r12 * p.z,
   rot_mat.r20 * p.x + rot_mat.r21 * p.y + rot_mat.r22 * p.z⟩

/-- Voxel-unit coordinate of one pixel, from get_weight_and_index:
pixel_position / voxel_length + (voxel_num_1d - 1) / 2. -/
noncomputable def pixel_position_voxel_unit (p : Vec3) (voxel_length : ℝ)
    (voxel_num_1d : ℕ) : Vec3 :=
  ⟨p.x / voxel_length + ((voxel_num_1d : ℝ) - 1) / 2,
   p.y / voxel_length + ((voxel_num_1d : ℝ) - 1) / 2,
   p.z / voxel_length + ((voxel_num_1d : ℝ) - 1) / 2⟩

/-- tmp_index = np.floor(pixel_position_voxel_unit).astype(np.int64). -/
noncomputable def tmp_index (p : Vec3) (voxel_length : ℝ) (voxel_num_1d : ℕ) :
    ℤ × ℤ × ℤ :=
  (⌊(pixel_position_voxel_unit p voxel_length voxel_num_1d).x⌋,
   ⌊(pixel_position_voxel_unit p voxel_length voxel_num_1d).y⌋,
   ⌊(pixel_position_voxel_unit p voxel_length voxel_num_1d).z⌋)

/-- dfloor = pixel_position_voxel_unit - tmp_index. -/
noncomputable def dfloor (p : Vec3) (voxel_length : ℝ) (voxel_num_1d : ℕ) : Vec3 :=
  ⟨(pixel_position_voxel_unit p voxel_length voxel_num_1d).x -
     (tmp_index p voxel_length voxel_num_1d).1,
   (pixel_position_voxel_unit p voxel_length voxel_num_1d).y -
     (tmp_index p voxel_length voxel_num_1d).2.1,
   (pixel_position_voxel_unit p voxel_length voxel_num_1d).z -
     (tmp_index p voxel_length voxel_num_1d).2.2⟩

/-- dceiling = 1 - dfloor. -/
noncomputable def dceiling (p : Vec3) (voxel_length : ℝ) (voxel_num_1d : ℕ) : Vec3 :=
  ⟨1 - (dfloor p voxel_length voxel_num_1d).x,
   1 - (dfloor p voxel_length voxel_num_1d).y,
   1 - (dfloor p voxel_length voxel_num_1d).z⟩

/-- get_weight_and_index of geometry.py for one pixel: the 8 stencil corner
indices (rows 70-96 of the source) and the 8 trilinear weights (rows 99-106).
The reshape steps of the source are shape bookkeeping and are dropped. -/
noncomputable def get_weight_and_index (p : Vec3) (voxel_length : ℝ)
    (voxel_num_1d : ℕ) : (Fin 8 → ℤ × ℤ × ℤ) × (Fin 8 → ℝ) :=
  let t := tmp_index p voxel_length voxel_num_1d
  let df := dfloor p voxel_length voxel_num_1d
  let dc := dceiling p voxel_length voxel_num_1d
  (fun k => match k with
    | 0 => (t.1,     t.2.1,     t.2.2)
    | 1 => (t.1,     t.2.1,     t.2.2 + 1)
    | 2 => (t.1,     t.2.1 + 1, t.2.2)
    | 3 => (t.1,     t.2.1 + 1, t.2.2 + 1)
    | 4 => (t.1 + 1, t.2.1,     t.2.2)
    | 5 => (t.1 + 1, t.2.1,     t.2.2 + 1)
    | 6 => (t.1 + 1, t.2.1 + 1, t.2.2)
    | 7 => (t.1 + 1, t.2.1 + 1, t.2.2 + 1),
   fun k => match k with
    | 0 => dc.x * dc.y * dc.z
    | 1 => dc.x * dc.y * df.z
    | 2 => dc.x * df.y * dc.z
    | 3 => dc.x * df.y * df.z
    | 4 => df.x * dc.y * dc.z
    | 5 => df.x * dc.y * df.z
    | 6 => df.x * df.y * dc.z
    | 7 => df.x * df.y * df.z)

/-- get_weight_in_reciprocal_space of geometry.py for one pixel.  Its body
duplicates get_weight_and_index except for the fixed (panel, x, y) shape
handling, which is again pure bookkeeping per pixel. -/
noncomputable def get_weight_in_reciprocal_space (p : Vec3) (voxel_length : ℝ)
    (voxel_num_1d : ℕ) : (Fin 8 → ℤ × ℤ × ℤ) × (Fin 8 → ℝ) :=
  let t := tmp_index p voxel_length voxel_num_1d
  let df := dfloor p voxel_length voxel_num_1d
  let dc := dceiling p voxel_length voxel_num_1d
  (fun k => match k with
    | 0 => (t.1,     t.2.1,     t.2.2)
    | 1 => (t.1,     t.2.1,     t.2.2 + 1)
    | 2 => (t.1,     t.2.1 + 1, t.2.2)
    | 3 => (t.1,     t.2.1 + 1, t.2.2 + 1)
    | 4 => (t.1 + 1, t.2.1,     t.2.2)
    | 5 => (t.1 + 1, t.2.1,     t.2.2 + 1)
    | 6 => (t.1 + 1, t.2.1 + 1, t.2.2)
    | 7 => (t.1 + 1, t.2.1 + 1, t.2.2 + 1),
   fun k => match k with
    | 0 => dc.x * dc.y * dc.z
    | 1 => dc.x * dc.y * df.z
    | 2 => dc.x * df.y * dc.z
    | 3 => dc.x * df.y * df.z
    | 4 => df.x * dc.y * dc.z
    | 5 => df.x * dc.y * df.z
    | 6 => df.x * df.y * dc.z
    | 7 => df.x * df.y * df.z)

/-- Offset of stencil corner k along axis a, following the corner order of
the source: corner k has offsets (k / 4, k / 2 % 2, k % 2). -/
def corner_offset (k : Fin 8) (a : Fin 3) : ℕ :=
  match a with
  | 0 => k.val / 4
  | 1 => k.val / 2 % 2
  | 2 => k.val % 2

/-- Trilinear weight as the specification words it: the product over the 3
axes of frac (offset 1) or 1 - frac (offset 0) of the voxel-unit coordinate. -/
noncomputable def trilinear_weight_spec (frac : Vec3) (k : Fin 8) : ℝ :=
  (if corner_offset k 0 = 1 then frac.x else 1 - frac.x) *
  (if corner_offset k 1 = 1 then frac.y else 1 - frac.y) *
  (if corner_offset k 2 = 1 then frac.z else 1 - frac.z)

lemma get_weight_and_index_weight_eq (p : Vec3) (voxel_length : ℝ)
    (voxel_num_1d : ℕ) (k : Fin 8) :
    (get_weight_and_index p voxel_length voxel_num_1d).2 k =
      trilinear_weight_spec (dfloor p voxel_length voxel_num_1d) k := by
  fin_cases k <;>
    simp [get_weight_and_index, trilinear_weight_spec, corner_offset, dceiling]

lemma get_weight_in_reciprocal_space_weight_eq (p : Vec3) (voxel_length : ℝ)
    (voxel_num_1d : ℕ) (k : Fin 8) :
    (get_weight_in_reciprocal_space p voxel_length voxel_num_1d).2 k =
      trilinear_weight_spec (dfloor p voxel_length voxel_num_1d) k := by
  fin_cases k <;>
    simp [get_weight_in_reciprocal_space, trilinear_weight_spec, corner_offset,
      dceiling]

lemma get_weight_and_index_weight_sum (p : Vec3) (voxel_length : ℝ)
    (voxel_num_1d : ℕ) :
    ∑ k : Fin 8, (get_weight_and_index p voxel_length voxel_num_1d).2 k = 1 := by
  rw [Fin.sum_univ_eight]
  simp only [get_weight_and_index, dceiling]
  ring

lemma get_weight_in_reciprocal_space_weight_sum (p : Vec3) (voxel_length : ℝ)
    (voxel_num_1d : ℕ) :
    ∑ k : Fin 8, (get_weight_in_reciprocal_space p voxel_length voxel_num_1d).2 k
      = 1 := by
  rw [Fin.sum_univ_eight]
  simp only [get_weight_in_reciprocal_space, dceiling]
  ring

/-- C1: for every pixel position, positive voxel length and odd voxel count,
each of the 8 trilinear weights returned by get_weight_and_index and by
get_weight_in_reciprocal_space is the product over the 3 axes of frac or
1 - frac of the voxel-unit coordinate, and the 8 weights sum to exactly 1. -/
theorem trilinear_weights_partition_of_unity (p : Vec3) (voxel_length : ℝ)
    (voxel_num_1d : ℕ) (hvl : 0 < voxel_length) (hodd : Odd voxel_num_1d) :
    (∀ k : Fin 8,
        (get_weight_and_index p voxel_length voxel_num_1d).2 k =
          trilinear_weight_spec (dfloor p voxel_length voxel_num_1d) k ∧
        (get_weight_in_reciprocal_space p voxel_length voxel_num_1d).2 k =
          trilinear_weight_spec (dfloor p voxel_length voxel_num_1d) k) ∧
    ∑ k : Fin 8, (get_weight_and_index p voxel_length voxel_num_1d).2 k = 1 ∧
    ∑ k : Fin 8, (get_weight_in_reciprocal_space p voxel_length voxel_num_1d).2 k
      = 1 := by
  refine ⟨fun k => ⟨get_weight_and_index_weight_eq p voxel_length voxel_num_1d k,
    get_weight_in_reciprocal_space_weight_eq p voxel_length voxel_num_1d k⟩,
    get_weight_and_index_weight_sum p voxel_length voxel_num_1d,
    get_weight_in_reciprocal_space_weight_sum p voxel_length voxel_num_1d⟩

/-- Row-major flattening factor of take_one_slice:
index_2d = ix * N * N + iy * N + iz (conversion_factor = [N * N, N, 1]). -/
def conversion_factor (voxel_num_1d : ℕ) (t : ℤ × ℤ × ℤ) : ℤ :=
  t.1 * ((voxel_num_1d : ℤ) * voxel_num_1d) + t.2.1 * voxel_num_1d + t.2.2

/-- Entry j of the row-major flattening volume_1d = np.reshape(volume, N ** 3)
of a cubic volume given as a function on integer grid coordinates below N. -/
def volume_1d (voxel_num_1d : ℕ) (volume : ℕ → ℕ → ℕ → ℝ) (j : ℕ) : ℝ :=
  volume (j / (voxel_num_1d * voxel_num_1d)) (j / voxel_num_1d % voxel_num_1d)
    (j % voxel_num_1d)

/-- take_one_slice of geometry.py for one pixel.  The flat corner indices are
gathered from volume_1d with numpy integer-array indexing: an index k is
valid when -N ^ 3 <= k < N ^ 3, negative indices wrap around, and any invalid
index raises IndexError (modelled as none).  The valid gather is the weighted
sum of the 8 corner values.  The pixel_num and pattern_shape arguments of the
source only drive reshapes and are dropped. -/
noncomputable def take_one_slice (voxel_num_1d : ℕ) (volume : ℕ → ℕ → ℕ → ℝ)
    (local_index : Fin 8 → ℤ × ℤ × ℤ) (local_weight : Fin 8 → ℝ) : Option ℝ :=
  if ∀ k : Fin 8, -((voxel_num_1d : ℤ) ^ 3) ≤ conversion_factor voxel_num_1d (local_index k) ∧
      conversion_factor voxel_num_1d (local_index k) < (voxel_num_1d : ℤ) ^ 3 then
    some (∑ k : Fin 8, local_weight k *
      volume_1d voxel_num_1d volume
        ((conversion_factor voxel_num_1d (local_index k) % ((voxel_num_1d : ℤ) ^ 3)).toNat))
  else
    none

/-- A stencil corner lies inside the voxel cube [0, N-1] ^ 3. -/
def corner_in_bounds (voxel_num_1d : ℕ) (t : ℤ × ℤ × ℤ) : Prop :=
  0 ≤ t.1 ∧ t.1 ≤ (voxel_num_1d : ℤ) - 1 ∧
  0 ≤ t.2.1 ∧ t.2.1 ≤ (voxel_num_1d : ℤ) - 1 ∧
  0 ≤ t.2.2 ∧ t.2.2 ≤ (voxel_num_1d : ℤ) - 1

lemma row_major_decompose (N a b c : ℕ) (ha : a < N) (hb : b < N) (hc : c < N) :
    (a * (N * N) + b * N + c) / (N * N) = a ∧
    (a * (N * N) + b * N + c) / N % N = b ∧
    (a * (N * N) + b * N + c) % N = c := by
  have hN : 0 < N := lt_of_le_of_lt (Nat.zero_le a) ha
  have hNN : 0 < N * N := Nat.mul_pos hN hN
  refine ⟨?_, ?_, ?_⟩
  · have h1 : a * (N * N) + b * N + c = (b * N + c) + a * (N * N) := by ring
    rw [h1, Nat.add_mul_div_right _ _ hNN, Nat.div_eq_of_lt, Nat.zero_add]
    calc b * N + c < b * N + N := by omega
      _ = (b + 1) * N := by ring
      _ ≤ N * N := Nat.mul_le_mul_right N (by omega)
  · have h1 : a * (N * N) + b * N + c = c + (b + a * N) * N := by ring
    rw [h1, Nat.add_mul_div_right _ _ hN, Nat.div_eq_of_lt hc, Nat.zero_add,
      Nat.add_mul_mod_self_right, Nat.mod_eq_of_lt hb]
  · have h1 : a * (N * N) + b * N + c = c + (a * N + b) * N := by ring
    rw [h1, Nat.add_mul_mod_self_right, Nat.mod_eq_of_lt hc]

lemma conversion_factor_range (N : ℕ) (t : ℤ × ℤ × ℤ)
    (h : corner_in_bounds N t) :
    0 ≤ conversion_factor N t ∧ conversion_factor N t < (N : ℤ) ^ 3 := by
  obtain ⟨h1, h2, h3, h4, h5, h6⟩ := h
  constructor
  · have p1 : (0:ℤ) ≤ t.1 * ((N : ℤ) * N) := mul_nonneg h1 (by positivity)
    have p2 : (0:ℤ) ≤ t.2.1 * (N : ℤ) := mul_nonneg h3 (by positivity)
    unfold conversion_factor
    linarith
  · unfold conversion_factor
    nlinarith [h1, h2, h3, h4, h5, h6]

/-- C2: for every constant-valued volume, every rotation matrix and every
pixel position whose 8 stencil corners (computed by get_weight_and_index on
the rotated position) all lie inside [0, N-1] ^ 3, take_one_slice returns
exactly the constant. -/
theorem take_one_slice_constant_volume (c : ℝ) (rot_mat : Mat3) (p : Vec3)
    (voxel_length : ℝ) (voxel_num_1d : ℕ) (volume : ℕ → ℕ → ℕ → ℝ)
    (hvol : ∀ i j k, i < voxel_num_1d → j < voxel_num_1d → k < voxel_num_1d →
      volume i j k = c)
    (hb : ∀ k : Fin 8, corner_in_bounds voxel_num_1d
      ((get_weight_and_index (rotate_pixels_in_reciprocal_space rot_mat p)
        voxel_length voxel_num_1d).1 k)) :
    take_one_slice voxel_num_1d volume
      ((get_weight_and_index (rotate_pixels_in_reciprocal_space rot_mat p)
        voxel_length voxel_num_1d).1)
      ((get_weight_and_index (rotate_pixels_in_reciprocal_space rot_mat p)
        voxel_length voxel_num_1d).2) = some c := by
  set q := rotate_pixels_in_reciprocal_space rot_mat p with hq
  set idx := (get_weight_and_index q voxel_length voxel_num_1d).1 with hidx
  set w := (get_weight_and_index q voxel_length voxel_num_1d).2 with hw
  have hrange : ∀ k : Fin 8, 0 ≤ conversion_factor voxel_num_1d (idx k) ∧
      conversion_factor voxel_num_1d (idx k) < (voxel_num_1d : ℤ) ^ 3 :=
    fun k => conversion_factor_range voxel_num_1d (idx k) (hb k)
  have hguard : ∀ k : Fin 8,
      -((voxel_num_1d : ℤ) ^ 3) ≤ conversion_factor voxel_num_1d (idx k) ∧
      conversion_factor voxel_num_1d (idx k) < (voxel_num_1d : ℤ) ^ 3 := by
    intro k
    refine ⟨le_trans (neg_nonpos.mpr (by positivity)) (hrange k).1, (hrange k).2⟩
  rw [take_one_slice, if_pos hguard]
  have hgather : ∀ k : Fin 8,
      volume_1d voxel_num_1d volume
        ((conversion_factor voxel_num_1d (idx k) % ((voxel_num_1d : ℤ) ^ 3)).toNat) = c := by
    intro k
    obtain ⟨h1, h2, h3, h4, h5, h6⟩ := hb k
    have hmod : conversion_factor voxel_num_1d (idx k) % ((voxel_num_1d : ℤ) ^ 3) =
        conversion_factor voxel_num_1d (idx k) :=
      Int.emod_eq_of_lt (hrange k).1 (hrange k).2
    rw [hmod]
    set a := (idx k).1.toNat with hA
    set b := (idx k).2.1.toNat with hB
    set d := (idx k).2.2.toNat with hD
    have hNpos : 0 < voxel_num_1d := by
      by_contra h0
      have : (voxel_num_1d : ℤ) - 1 < 0 := by omega
      omega
    have haN : a < voxel_num_1d := by omega
    have hbN : b < voxel_num_1d := by omega
    have hdN : d < voxel_num_1d := by omega
    have hconv : conversion_factor voxel_num_1d (idx k) =
        ((a * (voxel_num_1d * voxel_num_1d) + b * voxel_num_1d + d : ℕ) : ℤ) := by
      unfold conversion_factor
      have e1 : (idx k).1 = (a : ℤ) := by omega
      have e2 : (idx k).2.1 = (b : ℤ) := by omega
      have e3 : (idx k).2.2 = (d : ℤ) := by omega
      rw [e1, e2, e3]
      push_cast
      ring
    rw [hconv, Int.toNat_natCast]
    obtain ⟨e1, e2, e3⟩ := row_major_decompose voxel_num_1d a b d haN hbN hdN
    unfold volume_1d
    rw [e1, e2, e3]
    exact hvol a b d haN hbN hdN
  calc some (∑ k : Fin 8, w k * volume_1d voxel_num_1d volume
        ((conversion_factor voxel_num_1d (idx k) % ((voxel_num_1d : ℤ) ^ 3)).toNat))
      = some (∑ k : Fin 8, w k * c) := by
        congr 1
        exact Finset.sum_congr rfl fun k _ => by rw [hgather k]
    _ = some c := by
        rw [← Finset.sum_mul, hw, get_weight_and_index_weight_sum, one_mul]

/-- C2 witness: constant volume 5, identity rotation, pixel (0, 0, 0), voxel
length 1, voxel count 3; the stencil corners are (1, 1, 1) up to (2, 2, 2). -/
theorem take_one_slice_constant_volume_witness :
    take_one_slice 3 (fun _ _ _ => (5:ℝ))
      ((get_weight_and_index
        (rotate_pixels_in_reciprocal_space ⟨1, 0, 0, 0, 1, 0, 0, 0, 1⟩ ⟨0, 0, 0⟩) 1 3).1)
      ((get_weight_and_index
        (rotate_pixels_in_reciprocal_space ⟨1, 0, 0, 0, 1, 0, 0, 0, 1⟩ ⟨0, 0, 0⟩) 1 3).2)
      = some 5 := by
  refine take_one_slice_constant_volume 5 ⟨1, 0, 0, 0, 1, 0, 0, 0, 1⟩ ⟨0, 0, 0⟩ 1 3 _
    (fun _ _ _ _ _ _ => rfl) ?_
  intro k
  have hrot : rotate_pixels_in_reciprocal_space ⟨1, 0, 0, 0, 1, 0, 0, 0, 1⟩
      (⟨0, 0, 0⟩ : Vec3) = ⟨0, 0, 0⟩ := by
    simp [rotate_pixels_in_reciprocal_space]
  rw [hrot]
  have hcoord : pixel_position_voxel_unit ⟨0, 0, 0⟩ 1 3 = ⟨1, 1, 1⟩ := by
    simp [pixel_position_voxel_unit]
    norm_num
  have htmp : tmp_index ⟨0, 0, 0⟩ 1 3 = (1, 1, 1) := by
    simp [tmp_index, hcoord]
  fin_cases k <;>
    simp [get_weight_and_index, htmp, corner_in_bounds]

/-- C1 witness: the theorem instantiated at pixel (0, 0, 0), voxel length 1
and voxel count 3. -/
theorem trilinear_weights_partition_of_unity_witness :
    (0:ℝ) < 1 ∧ Odd 3 ∧
    ((∀ k : Fin 8,
        (get_weight_and_index ⟨0, 0, 0⟩ 1 3).2 k =
          trilinear_weight_spec (dfloor ⟨0, 0, 0⟩ 1 3) k ∧
        (get_weight_in_reciprocal_space ⟨0, 0, 0⟩ 1 3).2 k =
          trilinear_weight_spec (dfloor ⟨0, 0, 0⟩ 1 3) k) ∧
    ∑ k : Fin 8, (get_weight_and_index ⟨0, 0, 0⟩ 1 3).2 k = 1 ∧
    ∑ k : Fin 8, (get_weight_in_reciprocal_space ⟨0, 0, 0⟩ 1 3).2 k = 1) :=
  ⟨by norm_num, ⟨1, by norm_num⟩,
    trilinear_weights_partition_of_unity ⟨0, 0, 0⟩ 1 3 (by norm_num) ⟨1, by norm_num⟩⟩

/-- quaternion2rot3d of geometry.py: the bilinear form of the quaternion
(w, x, y, z), entries written with the products q01 .. q33 of the source
substituted in. -/
def quaternion2rot3d (quat : Quat) : Mat3 :=
  ⟨1 - 2 * (quat.y * quat.y + quat.z * quat.z),
   2 * (quat.x * quat.y - quat.w * quat.z),
   2 * (quat.x * quat.z + quat.w * quat.y),
   2 * (quat.x * quat.y + quat.w * quat.z),
   1 - 2 * (quat.x * quat.x + quat.z * quat.z),
   2 * (quat.y * quat.z - quat.w * quat.x),
   2 * (quat.x * quat.z - quat.w * quat.y),
   2 * (quat.y * quat.z + quat.w * quat.x),
   1 - 2 * (quat.x * quat.x + quat.y * quat.y)⟩

/-- rotmat_to_quaternion of geometry.py: four-way branch selection on the
trace and the diagonal entries, with scale S = sqrt(...) * 2 per branch. -/
noncomputable def rotmat_to_quaternion (rotmat : Mat3) : Quat :=
  if rotmat.r00 + rotmat.r11 + rotmat.r22 > 0 then
    ⟨0.25 * (Real.sqrt (rotmat.r00 + rotmat.r11 + rotmat.r22 + 1.0) * 2),
     (rotmat.r21 - rotmat.r12) / (Real.sqrt (rotmat.r00 + rotmat.r11 + rotmat.r22 + 1.0) * 2),
     (rotmat.r02 - rotmat.r20) / (Real.sqrt (rotmat.r00 + rotmat.r11 + rotmat.r22 + 1.0) * 2),
     (rotmat.r10 - rotmat.r01) / (Real.sqrt (rotmat.r00 + rotmat.r11 + rotmat.r22 + 1.0) * 2)⟩
  else if rotmat.r00 > rotmat.r11 ∧ rotmat.r00 > rotmat.r22 then
    ⟨(rotmat.r21 - rotmat.r12) / (Real.sqrt (1.0 + rotmat.r00 - rotmat.r11 - rotmat.r22) * 2),
     0.25 * (Real.sqrt (1.0 + rotmat.r00 - rotmat.r11 - rotmat.r22) * 2),
     (rotmat.r01 + rotmat.r10) / (Real.sqrt (1.0 + rotmat.r00 - rotmat.r11 - rotmat.r22) * 2),
     (rotmat.r02 + rotmat.r20) / (Real.sqrt (1.0 + rotmat.r00 - rotmat.r11 - rotmat.r22) * 2)⟩
  else if rotmat.r11 > rotmat.r22 then
    ⟨(rotmat.r02 - rotmat.r20) / (Real.sqrt (1.0 + rotmat.r11 - rotmat.r00 - rotmat.r22) * 2),
     (rotmat.r01 + rotmat.r10) / (Real.sqrt (1.0 + rotmat.r11 - rotmat.r00 - rotmat.r22) * 2),
     0.25 * (Real.sqrt (1.0 + rotmat.r11 - rotmat.r00 - rotmat.r22) * 2),
     (rotmat.r12 + rotmat.r21) / (Real.sqrt (1.0 + rotmat.r11 - rotmat.r00 - rotmat.r22) * 2)⟩
  else
    ⟨(rotmat.r10 - rotmat.r01) / (Real.sqrt (1.0 + rotmat.r22 - rotmat.r00 - rotmat.r11) * 2),
     (rotmat.r02 + rotmat.r20) / (Real.sqrt (1.0 + rotmat.r22 - rotmat.r00 - rotmat.r11) * 2),
     (rotmat.r12 + rotmat.r21) / (Real.sqrt (1.0 + rotmat.r22 - rotmat.r00 - rotmat.r11) * 2),
     0.25 * (Real.sqrt (1.0 + rotmat.r22 - rotmat.r00 - rotmat.r11) * 2)⟩

/-- C3: for every unit quaternion, rotmat_to_quaternion inverts
quaternion2rot3d up to global sign, across all four reconstruction branches. -/
theorem rotmat_to_quaternion_roundtrip (w x y z : ℝ)
    (h : w ^ 2 + x ^ 2 + y ^ 2 + z ^ 2 = 1) :
    rotmat_to_quaternion (quaternion2rot3d ⟨w, x, y, z⟩) = ⟨w, x, y, z⟩ ∨
    rotmat_to_quaternion (quaternion2rot3d ⟨w, x, y, z⟩) = ⟨-w, -x, -y, -z⟩ := by
  simp only [quaternion2rot3d, rotmat_to_quaternion]
  split_ifs with h1 h2 h3
  · -- branch 1: positive trace, S = 4 * abs w
    have harg : 1 - 2 * (y * y + z * z) + (1 - 2 * (x * x + z * z)) +
        (1 - 2 * (x * x + y * y)) + 1.0 = (2 * w) ^ 2 := by
      linear_combination (-4 : ℝ) * h
    have hw2 : (1 : ℝ) / 4 < w ^ 2 := by nlinarith [h1, h]
    have hw0 : w ≠ 0 := by
      intro h0
      rw [h0] at hw2
      norm_num at hw2
    rcases hw0.lt_or_lt with hneg | hpos
    · right
      have hs : Real.sqrt (1 - 2 * (y * y + z * z) + (1 - 2 * (x * x + z * z)) +
          (1 - 2 * (x * x + y * y)) + 1.0) = -(2 * w) := by
        rw [harg, Real.sqrt_sq_eq_abs, abs_of_neg (by linarith)]
      rw [hs]
      simp only [Quat.mk.injEq]
      refine ⟨by ring, ?_, ?_, ?_⟩ <;> (field_simp; ring)
    · left
      have hs : Real.sqrt (1 - 2 * (y * y + z * z) + (1 - 2 * (x * x + z * z)) +
          (1 - 2 * (x * x + y * y)) + 1.0) = 2 * w := by
        rw [harg, Real.sqrt_sq_eq_abs, abs_of_pos (by linarith)]
      rw [hs]
      simp only [Quat.mk.injEq]
      refine ⟨by ring, ?_, ?_, ?_⟩ <;> (field_simp; ring)
  · -- branch 2: r00 is the dominant diagonal entry, S = 4 * abs x
    have harg : 1.0 + (1 - 2 * (y * y + z * z)) - (1 - 2 * (x * x + z * z)) -
        (1 - 2 * (x * x + y * y)) = (2 * x) ^ 2 := by ring
    have hx2 : y * y < x * x := by nlinarith [h2.1]
    have hx0 : x ≠ 0 := by
      intro h0
      rw [h0] at hx2
      nlinarith [sq_nonneg y, hx2]
    rcases hx0.lt_or_lt with hneg | hpos
    · right
      have hs : Real.sqrt (1.0 + (1 - 2 * (y * y + z * z)) - (1 - 2 * (x * x + z * z)) -
          (1 - 2 * (x * x + y * y))) = -(2 * x) := by
        rw [harg, Real.sqrt_sq_eq_abs, abs_of_neg (by linarith)]
      rw [hs]
      simp only [Quat.mk.injEq]
      refine ⟨?_, by ring, ?_, ?_⟩ <;> (field_simp; ring)
    · left
      have hs : Real.sqrt (1.0 + (1 - 2 * (y * y + z * z)) - (1 - 2 * (x * x + z * z)) -
          (1 - 2 * (x * x + y * y))) = 2 * x := by
        rw [harg, Real.sqrt_sq_eq_abs, abs_of_pos (by linarith)]
      rw [hs]
      simp only [Quat.mk.injEq]
      refine ⟨?_, by ring, ?_, ?_⟩ <;> (field_simp; ring)
  · -- branch 3: r11 is the dominant diagonal entry, S = 4 * abs y
    have harg : 1.0 + (1 - 2 * (x * x + z * z)) - (1 - 2 * (y * y + z * z)) -
        (1 - 2 * (x * x + y * y)) = (2 * y) ^ 2 := by ring
    have hy2 : z * z < y * y := by nlinarith [h3]
    have hy0 : y ≠ 0 := by
      intro h0
      rw [h0] at hy2
      nlinarith [sq_nonneg z, hy2]
    rcases hy0.lt_or_lt with hneg | hpos
    · right
      have hs : Real.sqrt (1.0 + (1 - 2 * (x * x + z * z)) - (1 - 2 * (y * y + z * z)) -
          (1 - 2 * (x * x + y * y))) = -(2 * y) := by
        rw [harg, Real.sqrt_sq_eq_abs, abs_of_neg (by linarith)]
      rw [hs]
      simp only [Quat.mk.injEq]
      refine ⟨?_, ?_, by ring, ?_⟩ <;> (field_simp; ring)
    · left
      have hs : Real.sqrt (1.0 + (1 - 2 * (x * x + z * z)) - (1 - 2 * (y * y + z * z)) -
          (1 - 2 * (x * x + y * y))) = 2 * y := by
        rw [harg, Real.sqrt_sq_eq_abs, abs_of_pos (by linarith)]
      rw [hs]
      simp only [Quat.mk.injEq]
      refine ⟨?_, ?_, by ring, ?_⟩ <;> (field_simp; ring)
  · -- branch 4: r22 is the dominant diagonal entry, S = 4 * abs z
    have harg : 1.0 + (1 - 2 * (x * x + y * y)) - (1 - 2 * (y * y + z * z)) -
        (1 - 2 * (x * x + z * z)) = (2 * z) ^ 2 := by ring
    have hz0 : z ≠ 0 := by
      intro hz
      subst hz
      have h3' := not_lt.mp h3
      have hy : y = 0 := by
        have hyy : y * y ≤ 0 := by linarith
        exact mul_self_eq_zero.mp (le_antisymm hyy (mul_self_nonneg y))
      subst hy
      have hx : x = 0 := by
        rcases not_and_or.mp h2 with hA | hB
        · have hA' := not_lt.mp hA
          have hxx : x * x ≤ 0 := by linarith
          exact mul_self_eq_zero.mp (le_antisymm hxx (mul_self_nonneg x))
        · have hB' := not_lt.mp hB
          have hxx : x * x ≤ 0 := by linarith
          exact mul_self_eq_zero.mp (le_antisymm hxx (mul_self_nonneg x))
      subst hx
      have htr := not_lt.mp h1
      norm_num at htr
    rcases hz0.lt_or_lt with hneg | hpos
    · right
      have hs : Real.sqrt (1.0 + (1 - 2 * (x * x + y * y)) - (1 - 2 * (y * y + z * z)) -
          (1 - 2 * (x * x + z * z))) = -(2 * z) := by
        rw [harg, Real.sqrt_sq_eq_abs, abs_of_neg (by linarith)]
      rw [hs]
      simp only [Quat.mk.injEq]
      refine ⟨?_, ?_, ?_, by ring⟩ <;> (field_simp; ring)
    · left
      have hs : Real.sqrt (1.0 + (1 - 2 * (x * x + y * y)) - (1 - 2 * (y * y + z * z)) -
          (1 - 2 * (x * x + z * z))) = 2 * z := by
        rw [harg, Real.sqrt_sq_eq_abs, abs_of_pos (by linarith)]
      rw [hs]
      simp only [Quat.mk.injEq]
      refine ⟨?_, ?_, ?_, by ring⟩ <;> (field_simp; ring)

/-- C3 witness: the round trip at the identity quaternion (1, 0, 0, 0). -/
theorem rotmat_to_quaternion_roundtrip_witness :
    (1:ℝ) ^ 2 + 0 ^ 2 + 0 ^ 2 + 0 ^ 2 = 1 ∧
    (rotmat_to_quaternion (quaternion2rot3d ⟨1, 0, 0, 0⟩) = ⟨1, 0, 0, 0⟩ ∨
     rotmat_to_quaternion (quaternion2rot3d ⟨1, 0, 0, 0⟩) = ⟨-1, -0, -0, -0⟩) :=
  ⟨by norm_num, rotmat_to_quaternion_roundtrip 1 0 0 0 (by norm_num)⟩

/-- Resolution of one integer used to index a numpy axis of size n: indices
in [-n, n) are valid, negative indices wrap around, anything else raises
IndexError. -/
def npAxisIndex (n : ℕ) (k : ℤ) : Except PyErr ℕ :=
  if 0 ≤ k ∧ k < (n : ℤ) then .ok k.toNat
  else if -(n : ℤ) ≤ k ∧ k < 0 then .ok (k + n).toNat
  else .error (.indexError "index out of bounds")

/-- Sequential row assignments image[r] = v (later writes win), each row
index resolved against axis 0 of the image. -/
def scatterRows {α : Type} (image : List (List α)) (writes : List (ℤ × List α)) :
    Except PyErr (List (List α)) :=
  writes.foldlM (fun im wr => do
    let r ← npAxisIndex im.length wr.1
    pure (im.set r wr.2)) image

/-- assemble_image_stack of geometry.py over lists.  Pixel values are kept
generic in the element type (the scatter never computes with them).
index_map is the list form of the (panel, x, y, 2) integer array; np.max
over an empty array raises ValueError, np.zeros with a negative size raises
ValueError.  The loop body image[index_map[l]] = image_stack[l] is numpy
advanced indexing with a single integer array A of shape (nx, ny, 2): every
integer in A indexes axis 0 of the image and receives a whole row, and the
right hand side B of shape (nx, ny) is broadcast against the write target of
shape (nx, ny, 2, ncols) - so B must broadcast into the trailing (2, ncols)
and the row written for corner choice c is independent of (i, j).  The
broadcast check is modelled before the per-write index bounds check; either
failure raises. -/
def assemble_image_stack {α : Type} [Zero α] (image_stack : List (List (List α)))
    (index_map : List (List (List (ℤ × ℤ)))) : Except PyErr (List (List α)) := do
  let entries := (index_map.map List.flatten).flatten
  match (entries.map Prod.fst).max?, (entries.map Prod.snd).max? with
  | some index_max_x, some index_max_y =>
    if index_max_x < 0 ∨ index_max_y < 0 then
      .error (.valueError "negative dimensions are not allowed")
    else
      let ncols := index_max_y.toNat
      let image0 := List.replicate index_max_x.toNat (List.replicate ncols (0 : α))
      (List.range index_map.length).foldlM (fun image l => do
        match image_stack[l]? with
        | none => .error (.indexError "list index out of range")
        | some b =>
          let a := index_map.getD l []
          let nx := b.length
          let ny := (b.headD []).length
          if (nx = 2 ∨ nx = 1) ∧ (ny = ncols ∨ ny = 1) then
            let rowVal : ℕ → List α := fun c =>
              (List.range ncols).map fun yy =>
                (b.getD (if nx = 1 then 0 else c) []).getD (if ny = 1 then 0 else yy) 0
            let writes := a.flatten.flatMap fun pr => [(pr.1, rowVal 0), (pr.2, rowVal 1)]
            scatterRows image writes
          else
            .error (.valueError "could not broadcast input array")) image0
  | _, _ => .error (.valueError "zero-size array to reduction operation maximum")

/-- assemble_image_stack_batch of geometry.py over lists.  image_stack has
shape (stack, panel, x, y); for each panel l the assignment
image[:, A0, A1] = image_stack[:, l] writes element (s, A[i, j].1, A[i, j].2)
:= image_stack[s][l][i][j] for every stack slot s and pixel (i, j), with both
coordinates bounds-checked (wrap for negatives) against the allocated
(max x, max y) image shape; later writes win in (s, i, j) order. -/
def assemble_image_stack_batch {α : Type} [Zero α]
    (image_stack : List (List (List (List α))))
    (index_map : List (List (List (ℤ × ℤ)))) :
    Except PyErr (List (List (List α))) := do
  let entries := (index_map.map List.flatten).flatten
  match (entries.map Prod.fst).max?, (entries.map Prod.snd).max? with
  | some index_max_x, some index_max_y =>
    if index_max_x < 0 ∨ index_max_y < 0 then
      .error (.valueError "negative dimensions are not allowed")
    else
      let stack_num := image_stack.length
      let panel_num := (image_stack.headD []).length
      let nrows := index_max_x.toNat
      let ncols := index_max_y.toNat
      let image0 := List.replicate stack_num
        (List.replicate nrows (List.replicate ncols (0 : α)))
      (List.range panel_num).foldlM (fun image l => do
        let a := index_map.getD l []
        (List.range stack_num).foldlM (fun image s =>
          (a.enum.foldlM (fun image rowpair =>
            (rowpair.2.enum.foldlM (fun image colpair => do
              let r1 ← npAxisIndex nrows colpair.2.1
              let r2 ← npAxisIndex ncols colpair.2.2
              let v := (((image_stack.getD s []).getD l []).getD rowpair.1 []).getD
                colpair.1 (0 : α)
              let pane := image.getD s []
              let row := pane.getD r1 []
              pure (image.set s (pane.set r1 (row.set r2 v)))) image)) image)) image)
        image0
  | _, _ => .error (.valueError "zero-size array to reduction operation maximum")

/-- C4: applying assemble_image_stack to a single 1 by 1 panel with value 7
and the identity index map does not reproduce the panel: the image is
allocated with shape (max index, max index) = (0, 0) and the scatter of
index 0 raises IndexError. -/
theorem assemble_image_stack_identity_fails :
    assemble_image_stack [[[(7 : ℚ)]]] [[[((0 : ℤ), (0 : ℤ))]]] =
      .error (.indexError "index out of bounds") := by rfl

/-- C5: on a batch of one stack entry, one 1 by 1 panel and the identity
index map, both assemble_image_stack_batch and assemble_image_stack raise
IndexError (allocation is sized to the maximum index, which the scatter then
exceeds), so the batch result at stack slot 0 is not the single-panel
assembled image: neither image exists. -/
theorem assemble_image_stack_batch_fails :
    assemble_image_stack_batch [[[[(7 : ℚ)]]]] [[[((0 : ℤ), (0 : ℤ))]]] =
      .error (.indexError "index out of bounds") ∧
    assemble_image_stack [[[(7 : ℚ)]]] [[[((0 : ℤ), (0 : ℤ))]]] =
      .error (.indexError "index out of bounds") := ⟨rfl, rfl⟩

/-- Python axis argument of the angle-axis converters: either a string name
or a numeric vector (isinstance(axis, basestring) dispatch). -/
inductive AxisSpec where
  | name (s : String)
  | vec (v : List ℝ)

/-- ASCII lower-casing of one character, as str.lower acts on the axis
names handled here. -/
def pyCharLower (c : Char) : Char :=
  if 65 ≤ c.toNat ∧ c.toNat ≤ 90 then Char.ofNat (c.toNat + 32) else c

/-- str.lower restricted to ASCII. -/
def pyLower (s : String) : String := String.mk (s.data.map pyCharLower)

/-- Axis validation shared by angle_axis_to_rot3d and
angle_axis_to_quaternion (the two functions duplicate this code verbatim):
a string is lowered and must be one of x, y, z, anything else raises
ValueError; a vector must have length exactly 3, else ValueError. -/
def aa_resolve_axis (axis : AxisSpec) : Except PyErr (List ℝ) :=
  match axis with
  | .name s0 =>
    if pyLower s0 = "x" then .ok [1, 0, 0]
    else if pyLower s0 = "y" then .ok [0, 1, 0]
    else if pyLower s0 = "z" then .ok [0, 0, 1]
    else .error (.valueError "Axis should be x, y, z or a 3D vector.")
  | .vec v =>
    if v.length ≠ 3 then .error (.valueError "Axis should be x, y, z or a 3D vector.")
    else .ok v

/-- np.linalg.norm of a vector given as a list. -/
noncomputable def np_linalg_norm (v : List ℝ) : ℝ :=
  Real.sqrt ((v.map fun t => t * t).sum)

/-- angle_axis_to_quaternion of geometry.py:
quat = [cos(theta / 2), sin(theta / 2) * normalized axis]. -/
noncomputable def angle_axis_to_quaternion (axis : AxisSpec) (theta : ℝ) :
    Except PyErr Quat := do
  let a ← aa_resolve_axis axis
  pure ⟨Real.cos (theta / 2),
        Real.sin (theta / 2) * (a.getD 0 0 / np_linalg_norm a),
        Real.sin (theta / 2) * (a.getD 1 0 / np_linalg_norm a),
        Real.sin (theta / 2) * (a.getD 2 0 / np_linalg_norm a)⟩

/-- angle_axis_to_rot3d of geometry.py: the Rodrigues matrix, with the
abbreviations a_bracket .. c_sin_theta of the source inlined. -/
noncomputable def angle_axis_to_rot3d (axis : AxisSpec) (theta : ℝ) :
    Except PyErr Mat3 := do
  let ax ← aa_resolve_axis axis
  let a := ax.getD 0 0 / np_linalg_norm ax
  let b := ax.getD 1 0 / np_linalg_norm ax
  let c := ax.getD 2 0 / np_linalg_norm ax
  pure ⟨a * (a * (1 - Real.cos theta)) + Real.cos theta,
        a * (b * (1 - Real.cos theta)) - c * Real.sin theta,
        a * (c * (1 - Real.cos theta)) + b * Real.sin theta,
        b * (a * (1 - Real.cos theta)) + c * Real.sin theta,
        b * (b * (1 - Real.cos theta)) + Real.cos theta,
        b * (c * (1 - Real.cos theta)) - a * Real.sin theta,
        c * (a * (1 - Real.cos theta)) - b * Real.sin theta,
        c * (b * (1 - Real.cos theta)) + a * Real.sin theta,
        c * (c * (1 - Real.cos theta)) + Real.cos theta⟩

/-- The specification condition for a well-formed axis argument: a
recognized name (case-insensitive x, y or z) or a vector of length
exactly 3. -/
def axis_spec_ok (axis : AxisSpec) : Prop :=
  match axis with
  | .name s0 => pyLower s0 = "x" ∨ pyLower s0 = "y" ∨ pyLower s0 = "z"
  | .vec v => v.length = 3

/-- C8: angle_axis_to_rot3d and angle_axis_to_quaternion raise ValueError
exactly when the axis is neither a recognized name (case-insensitive) nor a
length-3 vector, and return normally on every valid axis. -/
theorem angle_axis_validation (axis : AxisSpec) (theta : ℝ) :
    ((∃ msg, angle_axis_to_rot3d axis theta = .error (.valueError msg)) ↔
      ¬ axis_spec_ok axis) ∧
    ((∃ m, angle_axis_to_rot3d axis theta = .ok m) ↔ axis_spec_ok axis) ∧
    ((∃ msg, angle_axis_to_quaternion axis theta = .error (.valueError msg)) ↔
      ¬ axis_spec_ok axis) ∧
    ((∃ q, angle_axis_to_quaternion axis theta = .ok q) ↔ axis_spec_ok axis) := by
  cases axis with
  | name s0 =>
    simp only [angle_axis_to_rot3d, angle_axis_to_quaternion, aa_resolve_axis,
      axis_spec_ok]
    split_ifs with hx hy hz <;>
      simp_all [bind, Except.bind, pure, Except.pure]
  | vec v =>
    simp only [angle_axis_to_rot3d, angle_axis_to_quaternion, aa_resolve_axis,
      axis_spec_ok]
    split_ifs with hlen <;>
      simp_all [bind, Except.bind, pure, Except.pure]

/-- Zero quaternion: one row of the np.zeros((num_pts, 4)) holder. -/
def zeroQuat : Quat := ⟨0, 0, 0, 0⟩

/-- Value of an Except, with a default for the error case.  Used where the
source calls a function whose exception cases are unreachable. -/
def exceptGetD {ε β : Type} (e : Except ε β) (d : β) : β :=
  match e with
  | .ok b => b
  | .error _ => d

/-- The accumulated angle my_ang of points_on_1sphere: starts at 0 and adds
inc_ang once per loop iteration. -/
noncomputable def my_ang (inc_ang : ℝ) : ℕ → ℝ
  | 0 => 0
  | i + 1 => my_ang inc_ang i + inc_ang

lemma my_ang_eq (inc_ang : ℝ) (i : ℕ) : my_ang inc_ang i = i * inc_ang := by
  induction i with
  | zero => simp [my_ang]
  | succ n ih =>
    rw [my_ang, ih]
    push_cast
    ring

/-- points_on_1sphere of geometry.py: row i is
angle_axis_to_quaternion applied to the accumulated angle in radians, about
the y axis for rotation_axis = y, but about the x axis for
rotation_axis = z; any other axis leaves the np.zeros holder untouched.
The named-axis quaternion calls cannot raise, so their exception case is
defaulted. -/
noncomputable def points_on_1sphere (num_pts : ℕ) (rotation_axis : String) :
    List Quat :=
  if rotation_axis = "y" then
    (List.range num_pts).map fun i =>
      exceptGetD (angle_axis_to_quaternion (.name "y")
        (my_ang (360 / (num_pts : ℝ)) i * π / 180)) zeroQuat
  else if rotation_axis = "z" then
    (List.range num_pts).map fun i =>
      exceptGetD (angle_axis_to_quaternion (.name "x")
        (my_ang (360 / (num_pts : ℝ)) i * π / 180)) zeroQuat
  else
    List.replicate num_pts zeroQuat

/-- C6 counterexample: for the supported axis z, entry 1 of
points_on_1sphere 2 is not the rotation by 180 degrees about the z axis
(the code dispatches axis z to rotations about x). -/
theorem points_on_1sphere_z_mismatch :
    ¬ ((points_on_1sphere 2 "z").getD 1 zeroQuat =
       exceptGetD (angle_axis_to_quaternion (.name "z")
         (my_ang (360 / ((2 : ℕ) : ℝ)) 1 * π / 180)) zeroQuat) := by
  have e1 : pyLower "x" = "x" := by decide
  have e2 : pyLower "z" = "z" := by decide
  have hang : my_ang (360 / ((2 : ℕ) : ℝ)) 1 * π / 180 = π := by
    rw [my_ang, my_ang]
    norm_num
  have hnorm1 : np_linalg_norm [(1 : ℝ), 0, 0] = 1 := by
    simp [np_linalg_norm]
  have hnorm3 : np_linalg_norm [(0 : ℝ), 0, 1] = 1 := by
    simp [np_linalg_norm]
  have hxq : angle_axis_to_quaternion (.name "x")
      (my_ang (360 / ((2 : ℕ) : ℝ)) 1 * π / 180) = .ok ⟨0, 1, 0, 0⟩ := by
    rw [hang]
    simp [angle_axis_to_quaternion, aa_resolve_axis, e1, hnorm1, bind, Except.bind,
      pure, Except.pure, Real.cos_pi_div_two, Real.sin_pi_div_two]
  have hzq : angle_axis_to_quaternion (.name "z")
      (my_ang (360 / ((2 : ℕ) : ℝ)) 1 * π / 180) = .ok ⟨0, 0, 0, 1⟩ := by
    rw [hang]
    simp [angle_axis_to_quaternion, aa_resolve_axis, e2, hnorm3, bind, Except.bind,
      pure, Except.pure, Real.cos_pi_div_two, Real.sin_pi_div_two]
  have hr : List.range 2 = [0, 1] := rfl
  have hL : (points_on_1sphere 2 "z").getD 1 zeroQuat = ⟨0, 1, 0, 0⟩ := by
    rw [points_on_1sphere, if_neg (by decide), if_pos rfl, hr]
    simp only [List.map_cons, List.map_nil, List.getD_cons_succ, List.getD_cons_zero]
    rw [hxq]
    rfl
  have hR : exceptGetD (angle_axis_to_quaternion (.name "z")
      (my_ang (360 / ((2 : ℕ) : ℝ)) 1 * π / 180)) zeroQuat = ⟨0, 0, 0, 1⟩ := by
    rw [hzq]
    rfl
  intro h
  rw [hL, hR] at h
  have hx := congrArg Quat.x h
  norm_num at hx

/-- C6 amended: points_on_1sphere returns num_pts rows; for axis y row i is
the quaternion of the rotation by i * (360 / num_pts) degrees about the y
axis; for axis z it is the rotation by the same angle about the x axis (not
z); every other axis yields the all-zero rows. -/
theorem points_on_1sphere_rows (num_pts : ℕ) (hn : 1 ≤ num_pts)
    (rotation_axis : String) :
    (points_on_1sphere num_pts rotation_axis).length = num_pts ∧
    points_on_1sphere num_pts rotation_axis =
      (List.range num_pts).map (fun (i : ℕ) =>
        if rotation_axis = "y" then
          exceptGetD (angle_axis_to_quaternion (.name "y")
            ((i : ℝ) * (360 / (num_pts : ℝ)) * π / 180)) zeroQuat
        else if rotation_axis = "z" then
          exceptGetD (angle_axis_to_quaternion (.name "x")
            ((i : ℝ) * (360 / (num_pts : ℝ)) * π / 180)) zeroQuat
        else zeroQuat) := by
  constructor
  · rw [points_on_1sphere]
    split_ifs <;> simp
  · rw [points_on_1sphere]
    split_ifs with hy hz
    · exact List.map_congr_left fun i _ => by rw [my_ang_eq]
    · exact List.map_congr_left fun i _ => by rw [my_ang_eq]
    · rw [show (fun _ : ℕ => zeroQuat) = Function.const ℕ zeroQuat from rfl,
        List.map_const, List.length_range]

/-- C6 witness: the amended statement at num_pts = 1 and axis z. -/
theorem points_on_1sphere_rows_witness :
    1 ≤ 1 ∧
    ((points_on_1sphere 1 "z").length = 1 ∧
     points_on_1sphere 1 "z" =
      (List.range 1).map (fun (i : ℕ) =>
        if ("z" : String) = "y" then
          exceptGetD (angle_axis_to_quaternion (.name "y")
            ((i : ℝ) * (360 / ((1 : ℕ) : ℝ)) * π / 180)) zeroQuat
        else if ("z" : String) = "z" then
          exceptGetD (angle_axis_to_quaternion (.name "x")
            ((i : ℝ) * (360 / ((1 : ℕ) : ℝ)) * π / 180)) zeroQuat
        else zeroQuat)) :=
  ⟨le_refl 1, points_on_1sphere_rows 1 (le_refl 1) "z"⟩

/-- get_random_quat of geometry.py with the process-wide random source made
an explicit parameter: u a j is the uniform draw u[a, j] of the source.  Row
j of the transposed result is
(sqrt(1 - u1) sin(2 pi u2), sqrt(1 - u1) cos(2 pi u2),
 sqrt(u1) sin(2 pi u3), sqrt(u1) cos(2 pi u3)). -/
noncomputable def get_random_quat (num_pts : ℕ) (u : Fin 3 → ℕ → ℝ) : List Quat :=
  (List.range num_pts).map fun j =>
    ⟨Real.sqrt (1 - u 0 j) * Real.sin (2 * π * u 1 j),
     Real.sqrt (1 - u 0 j) * Real.cos (2 * π * u 1 j),
     Real.sqrt (u 0 j) * Real.sin (2 * π * u 2 j),
     Real.sqrt (u 0 j) * Real.cos (2 * π * u 2 j)⟩

/-- Innermost sweep of points_on_2sphere (while w3 < 2 pi): writes one point
per step into the holder at position ind; writing past the end of the
2 * num_pts holder is the IndexError of the source, modelled as none.  The
fuel argument bounds the number of steps of this real-valued loop; an
exhausted fuel is also none. -/
noncomputable def w3_loop : ℕ → ℝ → ℝ → ℝ → ℝ → List Quat → ℕ →
    Option (List Quat × ℕ)
  | 0, _, _, _, _, _, _ => none
  | fuel + 1, w1, w2, delta_w3, w3, points, ind =>
    if w3 < 2 * π then
      if ind < points.length then
        w3_loop fuel w1 w2 delta_w3 (w3 + delta_w3)
          (points.set ind
            ⟨Real.cos w1, Real.sin w1 * Real.cos w2,
             Real.sin w1 * Real.sin w2 * Real.cos w3,
             Real.sin w1 * Real.sin w2 * Real.sin w3⟩)
          (ind + 1)
      else none
    else some (points, ind)

/-- Middle sweep of points_on_2sphere (while w2 < pi):
delta_w3 = delta_w2 / sin w2 and w3 starts at 0.5 * delta_w3. -/
noncomputable def w2_loop : ℕ → ℝ → ℝ → ℝ → List Quat → ℕ →
    Option (List Quat × ℕ)
  | 0, _, _, _, _, _ => none
  | fuel + 1, w1, delta_w2, w2, points, ind =>
    if w2 < π then
      match w3_loop fuel w1 w2 (delta_w2 / Real.sin w2)
          (0.5 * (delta_w2 / Real.sin w2)) points ind with
      | none => none
      | some (points2, ind2) => w2_loop fuel w1 delta_w2 (w2 + delta_w2) points2 ind2
    else some (points, ind)

/-- Outer sweep of points_on_2sphere (while w1 < pi):
delta_w2 = delta_w1 / sin w1 and w2 starts at 0.5 * delta_w2. -/
noncomputable def w1_loop : ℕ → ℝ → ℝ → List Quat → ℕ →
    Option (List Quat × ℕ)
  | 0, _, _, _, _ => none
  | fuel + 1, delta_w1, w1, points, ind =>
    if w1 < π then
      match w2_loop fuel w1 (delta_w1 / Real.sin w1)
          (0.5 * (delta_w1 / Real.sin w1)) points ind with
      | none => none
      | some (points2, ind2) => w1_loop fuel delta_w1 (w1 + delta_w1) points2 ind2
    else some (points, ind)

/-- Calibration loop of points_on_2sphere: while ind differs from num_pts
and fewer than max_iter = 1000 iterations were done, rerun the nested sweep
from ind = 0 with the current delta, then rescale delta by
exp(log(ind / num_pts) / 3); on exit return points[0 : num_pts]. -/
noncomputable def sphere2_outer : ℕ → ℕ → ℝ → List Quat → ℕ → ℕ →
    Option (List Quat)
  | 0, _, _, _, _, _ => none
  | fuel + 1, num_pts, delta, points, ind, iteration =>
    if ind ≠ num_pts ∧ iteration < 1000 then
      match w1_loop fuel delta (0.5 * delta) points 0 with
      | none => none
      | some (points2, ind2) =>
        sphere2_outer fuel num_pts
          (delta * Real.exp (Real.log ((ind2 : ℝ) / num_pts) / 3))
          points2 ind2 (iteration + 1)
    else some (points.take num_pts)

/-- points_on_2sphere of geometry.py: holder np.zeros((2 * num_pts, 4)),
initial delta = exp(log(surface_area / num_pts) / 3) with
surface_area = 4 * pi ^ 2 / 2, then the calibration loop.  The fuel
parameter bounds every real-valued while loop of the source; none models a
non-terminating run, an exhausted iteration budget inside a pass, or the
IndexError of an overfull holder. -/
noncomputable def points_on_2sphere (fuel num_pts : ℕ) : Option (List Quat) :=
  sphere2_outer fuel num_pts
    (Real.exp (Real.log ((4 * π ^ 2 / 2) / num_pts) / 3))
    (List.replicate (2 * num_pts) zeroQuat) 0 0

lemma w3_loop_length : ∀ fuel w1 w2 d w3 points ind out,
    w3_loop fuel w1 w2 d w3 points ind = some out →
    out.1.length = points.length := by
  intro fuel
  induction fuel with
  | zero => intro _ _ _ _ _ _ _ h; exact absurd h (by simp [w3_loop])
  | succ n ih =>
    intro w1 w2 d w3 points ind out h
    rw [w3_loop] at h
    by_cases h1 : w3 < 2 * π
    · rw [if_pos h1] at h
      by_cases h2 : ind < points.length
      · rw [if_pos h2] at h
        have := ih w1 w2 d (w3 + d) _ (ind + 1) out h
        simpa [List.length_set] using this
      · rw [if_neg h2] at h
        exact absurd h (by simp)
    · rw [if_neg h1] at h
      simp only [Option.some.injEq] at h
      rw [← h]

lemma w2_loop_length : ∀ fuel w1 dw2 w2 points ind out,
    w2_loop fuel w1 dw2 w2 points ind = some out →
    out.1.length = points.length := by
  intro fuel
  induction fuel with
  | zero => intro _ _ _ _ _ _ h; exact absurd h (by simp [w2_loop])
  | succ n ih =>
    intro w1 dw2 w2 points ind out h
    rw [w2_loop] at h
    by_cases h1 : w2 < π
    · rw [if_pos h1] at h
      rcases hm : w3_loop n w1 w2 (dw2 / Real.sin w2)
          (0.5 * (dw2 / Real.sin w2)) points ind with _ | ⟨p2, i2⟩
      · rw [hm] at h; exact absurd h (by simp)
      · rw [hm] at h
        have e2 := w3_loop_length n w1 w2 (dw2 / Real.sin w2)
          (0.5 * (dw2 / Real.sin w2)) points ind (p2, i2) hm
        have e1 := ih w1 dw2 (w2 + dw2) p2 i2 out h
        rw [e1]; exact e2
    · rw [if_neg h1] at h
      simp only [Option.some.injEq] at h
      rw [← h]

lemma w1_loop_length : ∀ fuel dw1 w1 points ind out,
    w1_loop fuel dw1 w1 points ind = some out →
    out.1.length = points.length := by
  intro fuel
  induction fuel with
  | zero => intro _ _ _ _ _ h; exact absurd h (by simp [w1_loop])
  | succ n ih =>
    intro dw1 w1 points ind out h
    rw [w1_loop] at h
    by_cases h1 : w1 < π
    · rw [if_pos h1] at h
      rcases hm : w2_loop n w1 (dw1 / Real.sin w1)
          (0.5 * (dw1 / Real.sin w1)) points ind with _ | ⟨p2, i2⟩
      · rw [hm] at h; exact absurd h (by simp)
      · rw [hm] at h
        have e2 := w2_loop_length n w1 (dw1 / Real.sin w1)
          (0.5 * (dw1 / Real.sin w1)) points ind (p2, i2) hm
        have e1 := ih dw1 (w1 + dw1) p2 i2 out h
        rw [e1]; exact e2
    · rw [if_neg h1] at h
      simp only [Option.some.injEq] at h
      rw [← h]

lemma sphere2_outer_length : ∀ fuel num_pts delta points ind iteration out,
    num_pts ≤ points.length →
    sphere2_outer fuel num_pts delta points ind iteration = some out →
    out.length = num_pts := by
  intro fuel
  induction fuel with
  | zero => intro _ _ _ _ _ _ _ h; exact absurd h (by simp [sphere2_outer])
  | succ n ih =>
    intro num_pts delta points ind iteration out hlen h
    rw [sphere2_outer] at h
    by_cases h1 : ind ≠ num_pts ∧ iteration < 1000
    · rw [if_pos h1] at h
      rcases hm : w1_loop n delta (0.5 * delta) points 0 with _ | ⟨p2, i2⟩
      · rw [hm] at h; exact absurd h (by simp)
      · rw [hm] at h
        have e2 := w1_loop_length n delta (0.5 * delta) points 0 (p2, i2) hm
        exact ih num_pts _ p2 i2 (iteration + 1) out (by rw [e2]; exact hlen) h
    · rw [if_neg h1] at h
      simp only [Option.some.injEq] at h
      rw [← h, List.length_take]
      exact min_eq_left hlen

/-- C7: get_random_quat returns exactly num_pts rows for any draws of the
random source, and whenever a points_on_2sphere run returns (for any fuel
bound on its real-valued while loops, converged or not) it returns exactly
num_pts rows. -/
theorem sampler_row_counts (num_pts : ℕ) (hn : 1 ≤ num_pts)
    (u : Fin 3 → ℕ → ℝ) (fuel : ℕ) :
    (get_random_quat num_pts u).length = num_pts ∧
    (points_on_2sphere fuel num_pts).elim True (fun l => l.length = num_pts) := by
  constructor
  · simp [get_random_quat]
  · rcases hm : points_on_2sphere fuel num_pts with _ | l
    · simp [Option.elim]
    · simp only [Option.elim]
      refine sphere2_outer_length fuel num_pts _ _ 0 0 l ?_ hm
      rw [List.length_replicate]
      omega

/-- C7 witness: num_pts = 1, the all-zero random source and fuel 0. -/
theorem sampler_row_counts_witness :
    1 ≤ 1 ∧
    ((get_random_quat 1 (fun _ _ => 0)).length = 1 ∧
     (points_on_2sphere 0 1).elim True (fun l => l.length = 1)) :=
  ⟨le_refl 1, sampler_row_counts 1 (le_refl 1) (fun _ _ => 0) 0⟩

/-- np.cross of two 3-vectors. -/
def np_cross (a b : Vec3) : Vec3 :=
  ⟨a.y * b.z - a.z * b.y, a.z * b.x - a.x * b.z, a.x * b.y - a.y * b.x⟩

/-- Dot product of two 3-vectors (np.dot on rows). -/
def np_dot (a b : Vec3) : ℝ := a.x * b.x + a.y * b.y + a.z * b.z

/-- np.sqrt(np.sum(np.square(v))) for one row. -/
noncomputable def vec_norm (a : Vec3) : ℝ :=
  Real.sqrt (a.x * a.x + a.y * a.y + a.z * a.z)

/-- v / norm(v) for one row, the direction computed by the source. -/
noncomputable def vec_direction (a : Vec3) : Vec3 :=
  ⟨a.x / vec_norm a, a.y / vec_norm a, a.z / vec_norm a⟩

/-- get_polarization_correction of geometry.py on a pixel stack given as a
list of pixel centers: per pixel, the sum of squares of the cross product of
the pixel direction and the normalized polarization vector.  The reshape to
1d and back drops the trailing coordinate axis, so the result is one scalar
per pixel. -/
noncomputable def get_polarization_correction (pixel_center : List Vec3)
    (polarization : Vec3) : List ℝ :=
  pixel_center.map fun p =>
    (np_cross (vec_direction p) (vec_direction polarization)).x ^ 2 +
    (np_cross (vec_direction p) (vec_direction polarization)).y ^ 2 +
    (np_cross (vec_direction p) (vec_direction polarization)).z ^ 2

/-- The specification value of the polarization correction:
1 - cos ^ 2 of the angle between the pixel direction and the normalized
polarization vector. -/
noncomputable def polarization_correction_spec (p polarization : Vec3) : ℝ :=
  1 - np_dot (vec_direction p) (vec_direction polarization) ^ 2

lemma sum_sq_pos (a : Vec3) (h : a ≠ (⟨0, 0, 0⟩ : Vec3)) :
    0 < a.x * a.x + a.y * a.y + a.z * a.z := by
  obtain ⟨ax, ay, az⟩ := a
  by_contra hle
  push_neg at hle
  have hx : ax = 0 := mul_self_eq_zero.mp (le_antisymm
    (by nlinarith [mul_self_nonneg ay, mul_self_nonneg az]) (mul_self_nonneg ax))
  have hy : ay = 0 := mul_self_eq_zero.mp (le_antisymm
    (by nlinarith [mul_self_nonneg ax, mul_self_nonneg az]) (mul_self_nonneg ay))
  have hz : az = 0 := mul_self_eq_zero.mp (le_antisymm
    (by nlinarith [mul_self_nonneg ax, mul_self_nonneg ay]) (mul_self_nonneg az))
  exact h (by rw [hx, hy, hz])

lemma vec_direction_dot_self (a : Vec3) (h : a ≠ (⟨0, 0, 0⟩ : Vec3)) :
    np_dot (vec_direction a) (vec_direction a) = 1 := by
  have hpos := sum_sq_pos a h
  have hsq : vec_norm a * vec_norm a = a.x * a.x + a.y * a.y + a.z * a.z :=
    Real.mul_self_sqrt (le_of_lt hpos)
  have hne : vec_norm a ≠ 0 := by
    rw [vec_norm]
    exact ne_of_gt (Real.sqrt_pos.mpr hpos)
  rw [np_dot, vec_direction]
  field_simp
  linear_combination -hsq

lemma cross_sq_lagrange (a b : Vec3) :
    (np_cross a b).x ^ 2 + (np_cross a b).y ^ 2 + (np_cross a b).z ^ 2 =
      np_dot a a * np_dot b b - np_dot a b ^ 2 := by
  simp only [np_cross, np_dot]
  ring

/-- C9: for pixels of nonzero norm and a nonzero polarization vector,
get_polarization_correction returns, per pixel, the squared magnitude of the
cross product of the pixel direction and the normalized polarization vector,
which equals 1 - cos ^ 2 of the angle between them, and one scalar per pixel
(the stack shape with the trailing coordinate axis removed). -/
theorem polarization_correction_values (pixel_center : List Vec3)
    (polarization : Vec3) (hp : ∀ p ∈ pixel_center, p ≠ (⟨0, 0, 0⟩ : Vec3))
    (hpol : polarization ≠ (⟨0, 0, 0⟩ : Vec3)) :
    get_polarization_correction pixel_center polarization =
      pixel_center.map (fun p => polarization_correction_spec p polarization) ∧
    (get_polarization_correction pixel_center polarization).length =
      pixel_center.length := by
  have hmap : get_polarization_correction pixel_center polarization =
      pixel_center.map (fun p => polarization_correction_spec p polarization) := by
    rw [get_polarization_correction]
    refine List.map_congr_left fun p hpmem => ?_
    rw [cross_sq_lagrange, vec_direction_dot_self p (hp p hpmem),
      vec_direction_dot_self polarization hpol, polarization_correction_spec]
    ring
  refine ⟨hmap, ?_⟩
  rw [hmap, List.length_map]

/-- C9 witness: one pixel at (1, 0, 0) and polarization (0, 1, 0). -/
theorem polarization_correction_values_witness :
    (∀ p ∈ [(⟨1, 0, 0⟩ : Vec3)], p ≠ (⟨0, 0, 0⟩ : Vec3)) ∧
    (⟨0, 1, 0⟩ : Vec3) ≠ (⟨0, 0, 0⟩ : Vec3) ∧
    (get_polarization_correction [⟨1, 0, 0⟩] ⟨0, 1, 0⟩ =
      [(⟨1, 0, 0⟩ : Vec3)].map
        (fun p => polarization_correction_spec p ⟨0, 1, 0⟩) ∧
     (get_polarization_correction [⟨1, 0, 0⟩] ⟨0, 1, 0⟩).length =
      [(⟨1, 0, 0⟩ : Vec3)].length) := by
  have h1 : ∀ p ∈ [(⟨1, 0, 0⟩ : Vec3)], p ≠ (⟨0, 0, 0⟩ : Vec3) := by
    intro p hpmem
    simp only [List.mem_singleton] at hpmem
    rw [hpmem]
    intro hcontra
    have := congrArg Vec3.x hcontra
    norm_num at this
  have h2 : (⟨0, 1, 0⟩ : Vec3) ≠ (⟨0, 0, 0⟩ : Vec3) := by
    intro hcontra
    have := congrArg Vec3.y hcontra
    norm_num at this
  exact ⟨h1, h2, polarization_correction_values [⟨1, 0, 0⟩] ⟨0, 1, 0⟩ h1 h2⟩

/-- Names defined at module level in geometry.py (its functions and
imports), used to model Python global name resolution. -/
def moduleNames : List String :=
  ["np", "time", "jit", "special_ortho_group",
   "rotate_pixels_in_reciprocal_space", "get_weight_and_index",
   "get_weight_in_reciprocal_space", "take_one_slice", "take_n_slice",
   "take_n_random_slices", "reshape_pixels_position_arrays_to_1d",
   "get_reciprocal_space_pixel_position", "get_polarization_correction",
   "solid_angle", "get_reciprocal_position_and_correction",
   "get_reciprocal_mesh", "assemble_image_stack", "assemble_image_stack_batch",
   "angle_axis_to_rot3d", "angle_axis_to_quaternion", "euler_to_rot3d",
   "euler_to_quaternion", "quaternion_to_angle_axis", "rotmat_to_quaternion",
   "quaternion2rot3d", "points_on_1sphere", "points_on_2sphere",
   "get_random_rotation", "get_random_quat", "get_uniform_quat"]

/-- The Python builtins referenced by the module (length and quat2rot3d are
not among Python builtins). -/
def pythonBuiltins : List String :=
  ["len", "range", "print", "isinstance", "abs", "float", "int", "str",
   "list", "tuple", "dict", "set", "sum", "max", "min", "enumerate", "zip",
   "map", "filter", "type", "basestring"]

/-- Whether a global name used inside geometry.py resolves. -/
def resolvesName (s : String) : Bool :=
  moduleNames.contains s || pythonBuiltins.contains s

/-- Looking up one global name: an unresolvable name raises NameError. -/
def lookupGlobal (s : String) : Except PyErr Unit :=
  if resolvesName s then .ok () else .error (.nameError s)

/-- take_n_random_slices of geometry.py, modelled at the level of global
name resolution: its statements are executed in order and each global name
they reference is looked up; the numeric work itself is irrelevant to the
claim because the first statement, number = length(orientations), already
references the undefined name length (and the loop body references the
undefined quat2rot3d).  The Unit success value stands for the slices array
the source would return. -/
def take_n_random_slices {A B C D : Type} (detector : A) (volume : B)
    (voxel_length : C) (orientations : D) : Except PyErr Unit := do
  let _ ← lookupGlobal "length"
  let _ ← lookupGlobal "np"
  let _ ← lookupGlobal "time"
  let _ ← lookupGlobal "range"
  let _ ← lookupGlobal "quat2rot3d"
  let _ ← lookupGlobal "rotate_pixels_in_reciprocal_space"
  let _ ← lookupGlobal "get_weight_in_reciprocal_space"
  let _ ← lookupGlobal "take_one_slice"
  let _ ← lookupGlobal "print"
  pure ()

/-- C10: for every input, take_n_random_slices raises NameError on the
undefined name length before producing any slice, and quat2rot3d is
undefined as well, so the success path is unreachable. -/
theorem take_n_random_slices_name_error :
    (∀ (A B C D : Type) (detector : A) (volume : B) (voxel_length : C)
      (orientations : D),
      take_n_random_slices detector volume voxel_length orientations =
        .error (.nameError "length")) ∧
    resolvesName "quat2rot3d" = false := by
  exact ⟨fun A B C D d v vl o => rfl, rfl⟩

end Pysingfel
